import Mathlib

/-!
Shallow embedding of the Bevy Doodle-Jump game core (src/src/main.rs).

Machine floats (`f32`) are modelled as exact rationals `ℚ`; all the
quantities the spec reasons about (window sizes, sprite sizes, spacing,
velocities) are exactly representable and the claims are about the
algebraic structure of the update rules, not float rounding.

Bevy `Entity` identifiers are modelled as `Nat`; `bevy_rapier`'s
`CollisionEvent` is a tagged union `Started`/`Stopped` carrying the two
entity ids and the event flags (`CollisionEventFlags` bits, modelled as a
`Nat`; `from_bits(0).unwrap()` is the empty flag set `0`).

The `ScoreValue(i8)` resource is modelled as `Int`: the proven invariant
`score = number of scored platforms ≤ 50` keeps every reachable value far
below the `i8` range, so two's-complement wrapping never occurs and the
model agrees with the machine integer.
-/

-- ## Game constants (src/src/main.rs lines 10-16)

def WINDOW_WIDTH : ℚ := 960

def WINDOW_HEIGHT : ℚ := 540

def SPRITE_SIZE : ℚ := 32.0 * 1.56

def PLATFORM_WIDTH : ℚ := 64.0 * 1.875

def PLATFORM_HEIGHT : ℚ := 32.0 * 0.625

-- ## Collision events and the collision-handler state

/-- The `bevy_rapier2d::CollisionEvent` type: `Started(e1, e2, flags)` /
`Stopped(e1, e2, flags)`.  Rust derives `PartialEq` on it, comparing the
two entity ids positionally and the flag bits. -/
inductive CollisionEvent where
  | Started (a b : Nat) (flags : Nat)
  | Stopped (a b : Nat) (flags : Nat)
deriving DecidableEq, Repr

/-- The state touched by `player_collision_detection_system`: the
`ScoreValue` resource, the player's `player_colliding` flag, and the
platform query as a list of (entity id, `already_collided`) pairs. -/
structure CollisionState where
  score : Int
  player_colliding : Bool
  platforms : List (Nat × Bool)
deriving DecidableEq, Repr

/-- The body of the inner `for (platform_entity, platform_object) in
platform_query.iter_mut()` loop of `player_collision_detection_system`
(main.rs lines 273-296), threading the mutable score and
`player_colliding` flag through the platform list and rebuilding the
(mutated-in-place) platform list:
  * if the event equals `CollisionEvent::Started(player, platform, 0)`
    exactly: bump the score when `!already_collided`, set
    `player_colliding = true`, set `already_collided = true`;
  * else if it equals `CollisionEvent::Stopped(player, platform, 0)`:
    set `player_colliding = false`;
  * otherwise: no effect. -/
def handleEventAux (playerE : Nat) (ev : CollisionEvent) :
    Int → Bool → List (Nat × Bool) → Int × Bool × List (Nat × Bool)
  | score, colliding, [] => (score, colliding, [])
  | score, colliding, p :: ps =>
    if ev = CollisionEvent.Started playerE p.1 0 then
      let score' := if !p.2 then score + 1 else score
      let r := handleEventAux playerE ev score' true ps
      (r.1, r.2.1, (p.1, true) :: r.2.2)
    else if ev = CollisionEvent.Stopped playerE p.1 0 then
      let r := handleEventAux playerE ev score false ps
      (r.1, r.2.1, p :: r.2.2)
    else
      let r := handleEventAux playerE ev score colliding ps
      (r.1, r.2.1, p :: r.2.2)

/-- Processing of one collision event by
`player_collision_detection_system`. -/
def handleEvent (playerE : Nat) (st : CollisionState) (ev : CollisionEvent) :
    CollisionState :=
  let r := handleEventAux playerE ev st.score st.player_colliding st.platforms
  ⟨r.1, r.2.1, r.2.2⟩

/-- The system `player_collision_detection_system` (main.rs lines 262-298): the outer
`for collision_event in collision_events.iter()` loop, draining the
frame's event list in order. -/
def player_collision_detection_system (playerE : Nat)
    (events : List CollisionEvent) (st : CollisionState) : CollisionState :=
  events.foldl (handleEvent playerE) st

-- ## Specification-side views of one event-handling step

/-- Effect of one event on one platform record: the `Started` branch
forces `already_collided := true`, everything else leaves it alone. -/
def updatePlat (playerE : Nat) (ev : CollisionEvent) (p : Nat × Bool) :
    Nat × Bool :=
  if ev = CollisionEvent.Started playerE p.1 0 then (p.1, true) else p

/-- Number of platforms in `ps` that this event scores on: those whose
record the event matches as a `Started` and whose `already_collided` is
still false. -/
def freshHits (playerE : Nat) (ev : CollisionEvent) (ps : List (Nat × Bool)) :
    Nat :=
  ps.countP (fun p => decide (ev = CollisionEvent.Started playerE p.1 0) && !p.2)

/-- Does the event match `Started(player, platform, 0)` for some platform
in the list? -/
def startedHit (playerE : Nat) (ev : CollisionEvent) (ps : List (Nat × Bool)) :
    Bool :=
  ps.any (fun p => decide (ev = CollisionEvent.Started playerE p.1 0))

/-- Does the event match `Stopped(player, platform, 0)` for some platform
in the list? -/
def stoppedHit (playerE : Nat) (ev : CollisionEvent) (ps : List (Nat × Bool)) :
    Bool :=
  ps.any (fun p => decide (ev = CollisionEvent.Stopped playerE p.1 0))

/-- Number of platforms whose `already_collided` flag is set. -/
def countScored (ps : List (Nat × Bool)) : Nat := ps.countP (fun p => p.2)

/-- The verdict one collision event passes on the player's
`player_colliding` flag, given the entity ids of the platforms: `some
true` when the handler matches it as a `Started(player, platform, 0)`,
`some false` when it matches it as a `Stopped(player, platform, 0)`, and
`none` (flag untouched) otherwise.  Note the match is positional: the
player id must come FIRST and the flag bits must be zero. -/
def eventVerdict (playerE : Nat) (ents : List Nat) :
    CollisionEvent → Option Bool
  | CollisionEvent.Started a b f =>
    if a = playerE ∧ f = 0 ∧ b ∈ ents then some true else none
  | CollisionEvent.Stopped a b f =>
    if a = playerE ∧ f = 0 ∧ b ∈ ents then some false else none

/-- The verdict of the last event in the list that passes one. -/
def lastVerdict (playerE : Nat) (ents : List Nat) :
    List CollisionEvent → Option Bool
  | [] => none
  | ev :: evs =>
    match lastVerdict playerE ents evs with
    | some b => some b
    | none => eventVerdict playerE ents ev

/-- The first entity id carried by a collision event. -/
def eventFirstId : CollisionEvent → Nat
  | CollisionEvent.Started a _ _ => a
  | CollisionEvent.Stopped a _ _ => a

-- ## Player input (src/src/main.rs lines 199-242)

/-- The `Player` component (main.rs lines 23-29). -/
structure Player where
  movement_speed : ℚ
  jump_force : ℚ
  player_colliding : Bool
  facing_right : Bool
deriving DecidableEq, Repr

/-- The `bevy_rapier2d::Velocity` component — the player's linear velocity `linvel`. -/
structure Velocity where
  x : ℚ
  y : ℚ
deriving DecidableEq, Repr

/-- The system `player_input_system` (main.rs lines 199-242).  Inputs are the four
logical key states the system reads (`left`/`right`/`down` are
`pressed`, `respawn` is `just_pressed(R)`); the system mutates the
`Player` component, the `Velocity` and the `Transform` translation.
Statement order follows the source exactly:
  1. `facing_right := true` when right, then `facing_right := false`
     when left;
  2. normalize the input direction (length of `(±1, 0)` is `|±1|`);
  3. `linvel.x := dir.x * movement_speed`;
  4. if `player_colliding`, `linvel.y := jump_force`;
  5. if down, `linvel.y := -jump_force * 3.0`;
  6. if respawn, `translation := Vec3::splat(0.0)`. -/
def player_input_system (left right down respawn : Bool)
    (player : Player) (vel : Velocity) (translation : ℚ × ℚ × ℚ) :
    Player × Velocity × (ℚ × ℚ × ℚ) :=
  let x_input : Int := -(if left then (1 : Int) else 0) + (if right then 1 else 0)
  let player := if right then { player with facing_right := true } else player
  let player := if left then { player with facing_right := false } else player
  let dirx : ℚ := (x_input : ℚ)
  let dirx := if dirx ≠ 0 then dirx / |dirx| else dirx
  let vel := { vel with x := dirx * player.movement_speed }
  let vel :=
    if player.player_colliding = true then { vel with y := player.jump_force }
    else vel
  let vel := if down then { vel with y := -player.jump_force * 3 } else vel
  let translation :=
    if respawn = true then ((0 : ℚ), (0 : ℚ), (0 : ℚ)) else translation
  (player, vel, translation)

-- ## Camera follow (src/src/main.rs lines 244-260)

/-- The function `glam::Vec3::lerp(self, rhs, s) = self + (rhs - self) * s`,
componentwise; NO clamping of `s`. -/
def lerpQ (a b s : ℚ) : ℚ := a + (b - a) * s

/-- The system `player_camera_follow_system` (main.rs lines 244-260): the camera
translation is lerped toward `(0, player.y, 1)` with factor
`delta_seconds * follow_speed`. -/
def player_camera_follow_system (cam : ℚ × ℚ × ℚ) (playerY : ℚ)
    (delta_seconds follow_speed : ℚ) : ℚ × ℚ × ℚ :=
  let follow_pos : ℚ × ℚ × ℚ := (0, playerY, 1)
  (lerpQ cam.1 follow_pos.1 (delta_seconds * follow_speed),
   lerpQ cam.2.1 follow_pos.2.1 (delta_seconds * follow_speed),
   lerpQ cam.2.2 follow_pos.2.2 (delta_seconds * follow_speed))

/-- Modelled from the spec: the same camera update but with the
interpolation factor clamped to `min 1 (follow_speed * deltaTime)`, as
§4.5 of the spec words it.  Only used to compare against the
source-derived `player_camera_follow_system`. -/
def cameraFollowSpec (cam : ℚ × ℚ × ℚ) (playerY : ℚ)
    (delta_seconds follow_speed : ℚ) : ℚ × ℚ × ℚ :=
  let follow_pos : ℚ × ℚ × ℚ := (0, playerY, 1)
  (lerpQ cam.1 follow_pos.1 (min 1 (delta_seconds * follow_speed)),
   lerpQ cam.2.1 follow_pos.2.1 (min 1 (delta_seconds * follow_speed)),
   lerpQ cam.2.2 follow_pos.2.2 (min 1 (delta_seconds * follow_speed)))

-- ## Screen wrapping (src/src/main.rs lines 300-314)

/-- The system `player_screen_looping_system` (main.rs lines 300-314), acting on
the player's x translation. -/
def player_screen_looping_system (x : ℚ) : ℚ :=
  if x > WINDOW_WIDTH / 2 + SPRITE_SIZE / 2 then
    -(WINDOW_WIDTH / 2) + SPRITE_SIZE * 1.2
  else if x < -(WINDOW_WIDTH / 2) then
    WINDOW_WIDTH / 2 + SPRITE_SIZE / 2
  else x

-- ## World spawning (src/src/main.rs lines 145-196)

/-- The `rand` crate's `rng.gen_range(lo..hi)` on floats, modelled through the
uniform unit sample `u ∈ [0, 1)` it scales: the drawn value is
`lo + u * (hi - lo)`. -/
def gen_range (lo hi u : ℚ) : ℚ := lo + u * (hi - lo)

/-- Lower end of the x range the source samples (main.rs lines 179-182):
`-(WINDOW_WIDTH / 2.0 - PLATFORM_WIDTH)` — the FULL platform width is
subtracted. -/
def platform_x_lo : ℚ := -(WINDOW_WIDTH / 2 - PLATFORM_WIDTH)

/-- Upper end of the x range the source samples. -/
def platform_x_hi : ℚ := WINDOW_WIDTH / 2 - PLATFORM_WIDTH

/-- Modelled from the spec: the x-range endpoint §4.4 words as
`-(halfWidth - platformHalfWidth)`, i.e. subtracting HALF the platform
width.  Only used to compare against the source-derived
`platform_x_lo`. -/
def platform_x_lo_spec : ℚ := -(WINDOW_WIDTH / 2 - PLATFORM_WIDTH / 2)

/-- Modelled from the spec: the upper endpoint
`+(halfWidth - platformHalfWidth)`. -/
def platform_x_hi_spec : ℚ := WINDOW_WIDTH / 2 - PLATFORM_WIDTH / 2

/-- The platform part of `spawn_world_system` (main.rs lines 145-196):
one anchor platform at `(0, -WINDOW_HEIGHT/4)` followed by the
`for index in 1..50` loop spawning platforms at a random x and at
`y = -(WINDOW_HEIGHT/4.0) + WINDOW_HEIGHT/4.2 * index`.  Each platform
is the triple (x, y, `already_collided`); `u index` is the uniform unit
sample the rng draws at iteration `index`. -/
def spawn_platforms (u : Nat → ℚ) : List (ℚ × ℚ × Bool) :=
  ((0 : ℚ), -(WINDOW_HEIGHT / 4), false) ::
    (List.range' 1 49).map (fun index =>
      (gen_range platform_x_lo platform_x_hi (u index),
       -(WINDOW_HEIGHT / 4) + WINDOW_HEIGHT / 4.2 * (index : ℚ),
       false))

lemma startedHit_eq_false_of_stopped (playerE a b f : Nat)
    (ps : List (Nat × Bool)) :
    startedHit playerE (CollisionEvent.Stopped a b f) ps = false := by
  simp [startedHit]

lemma stoppedHit_eq_false_of_started (playerE a b f : Nat)
    (ps : List (Nat × Bool)) :
    stoppedHit playerE (CollisionEvent.Started a b f) ps = false := by
  simp [stoppedHit]

/-- Characterization of the inner platform loop: the final score is the
old score plus the number of freshly-scored platforms, the final
`player_colliding` flag is forced by whether the event matched any
platform as a `Started` (resp. `Stopped`), and each platform record is
updated independently. -/
lemma handleEventAux_eq (playerE : Nat) (ev : CollisionEvent)
    (score : Int) (colliding : Bool) (ps : List (Nat × Bool)) :
    handleEventAux playerE ev score colliding ps =
      (score + freshHits playerE ev ps,
       if startedHit playerE ev ps then true
       else if stoppedHit playerE ev ps then false
       else colliding,
       ps.map (updatePlat playerE ev)) := by
  induction ps generalizing score colliding with
  | nil => simp [handleEventAux, freshHits, startedHit, stoppedHit]
  | cons p ps ih =>
    by_cases hs : ev = CollisionEvent.Started playerE p.1 0
    · subst hs
      simp only [handleEventAux, eq_self_iff_true, if_true, ih, Prod.mk.injEq]
      refine ⟨?_, ?_, ?_⟩
      · by_cases hp : p.2
        · simp [freshHits, List.countP_cons, hp]
        · simp only [freshHits, List.countP_cons, hp]
          simp
          ring
      · simp [startedHit, List.any_cons, stoppedHit_eq_false_of_started]
      · simp [updatePlat]
    · by_cases ht : ev = CollisionEvent.Stopped playerE p.1 0
      · subst ht
        simp only [handleEventAux, if_neg hs, eq_self_iff_true, if_true, ih,
          Prod.mk.injEq]
        refine ⟨?_, ?_, ?_⟩
        · simp [freshHits, List.countP_cons, hs]
        · simp [startedHit_eq_false_of_stopped, stoppedHit, List.any_cons]
        · simp [updatePlat, hs]
      · simp only [handleEventAux, if_neg hs, if_neg ht, ih, Prod.mk.injEq]
        refine ⟨?_, ?_, ?_⟩
        · simp [freshHits, List.countP_cons, hs]
        · simp [startedHit, stoppedHit, List.any_cons, hs, ht]
        · simp [updatePlat, hs]

-- ## One-event corollaries

lemma handleEvent_score (playerE : Nat) (st : CollisionState)
    (ev : CollisionEvent) :
    (handleEvent playerE st ev).score =
      st.score + freshHits playerE ev st.platforms := by
  simp [handleEvent, handleEventAux_eq]

lemma handleEvent_platforms (playerE : Nat) (st : CollisionState)
    (ev : CollisionEvent) :
    (handleEvent playerE st ev).platforms =
      st.platforms.map (updatePlat playerE ev) := by
  simp [handleEvent, handleEventAux_eq]

lemma handleEvent_colliding (playerE : Nat) (st : CollisionState)
    (ev : CollisionEvent) :
    (handleEvent playerE st ev).player_colliding =
      (if startedHit playerE ev st.platforms then true
       else if stoppedHit playerE ev st.platforms then false
       else st.player_colliding) := by
  simp [handleEvent, handleEventAux_eq]

lemma updatePlat_fst (playerE : Nat) (ev : CollisionEvent) (p : Nat × Bool) :
    (updatePlat playerE ev p).1 = p.1 := by
  unfold updatePlat
  split <;> rfl

lemma handleEvent_ents (playerE : Nat) (st : CollisionState)
    (ev : CollisionEvent) :
    (handleEvent playerE st ev).platforms.map Prod.fst =
      st.platforms.map Prod.fst := by
  rw [handleEvent_platforms, List.map_map]
  simp [Function.comp_def, updatePlat_fst]

lemma handleEvent_length (playerE : Nat) (st : CollisionState)
    (ev : CollisionEvent) :
    (handleEvent playerE st ev).platforms.length = st.platforms.length := by
  rw [handleEvent_platforms, List.length_map]

lemma updatePlat_true (playerE : Nat) (ev : CollisionEvent) (e : Nat) :
    updatePlat playerE ev (e, true) = (e, true) := by
  unfold updatePlat
  split <;> rfl

lemma handleEvent_flag_mono (playerE : Nat) (st : CollisionState)
    (ev : CollisionEvent) (i e : Nat)
    (h : st.platforms.get? i = some (e, true)) :
    (handleEvent playerE st ev).platforms.get? i = some (e, true) := by
  rw [handleEvent_platforms, List.get?_map, h, Option.map_some']
  rw [updatePlat_true]

lemma handleEvent_score_le (playerE : Nat) (st : CollisionState)
    (ev : CollisionEvent) :
    st.score ≤ (handleEvent playerE st ev).score := by
  rw [handleEvent_score]
  omega

-- ## The score / scored-platform-count invariant

lemma countScored_map_updatePlat (playerE : Nat) (ev : CollisionEvent)
    (ps : List (Nat × Bool)) :
    countScored (ps.map (updatePlat playerE ev)) =
      countScored ps + freshHits playerE ev ps := by
  induction ps with
  | nil => simp [countScored, freshHits]
  | cons p ps ih =>
    by_cases hs : ev = CollisionEvent.Started playerE p.1 0
    · by_cases hp : p.2 <;>
        simp [countScored, freshHits, List.countP_cons, updatePlat, hs, hp,
          countScored, freshHits] at ih ⊢ <;>
        omega
    · by_cases hp : p.2 <;>
        simp [countScored, freshHits, List.countP_cons, updatePlat, hs, hp] at ih ⊢ <;>
        omega

lemma handleEvent_invariant (playerE : Nat) (st : CollisionState)
    (ev : CollisionEvent) (h : st.score = countScored st.platforms) :
    (handleEvent playerE st ev).score =
      countScored (handleEvent playerE st ev).platforms := by
  rw [handleEvent_score, handleEvent_platforms, countScored_map_updatePlat, h]
  push_cast
  ring

-- ## Whole-frame (event list) lemmas

lemma run_cons (playerE : Nat) (ev : CollisionEvent)
    (evs : List CollisionEvent) (st : CollisionState) :
    player_collision_detection_system playerE (ev :: evs) st =
      player_collision_detection_system playerE evs (handleEvent playerE st ev) :=
  rfl

lemma run_invariant (playerE : Nat) (events : List CollisionEvent) :
    ∀ st : CollisionState, st.score = countScored st.platforms →
      (player_collision_detection_system playerE events st).score =
        countScored (player_collision_detection_system playerE events st).platforms := by
  induction events with
  | nil => intro st h; exact h
  | cons ev evs ih =>
    intro st h
    rw [run_cons]
    exact ih _ (handleEvent_invariant playerE st ev h)

lemma run_score_le (playerE : Nat) (events : List CollisionEvent) :
    ∀ st : CollisionState,
      st.score ≤ (player_collision_detection_system playerE events st).score := by
  induction events with
  | nil => intro st; exact le_refl _
  | cons ev evs ih =>
    intro st
    rw [run_cons]
    exact le_trans (handleEvent_score_le playerE st ev) (ih _)

lemma run_ents (playerE : Nat) (events : List CollisionEvent) :
    ∀ st : CollisionState,
      (player_collision_detection_system playerE events st).platforms.map Prod.fst =
        st.platforms.map Prod.fst := by
  induction events with
  | nil => intro st; rfl
  | cons ev evs ih =>
    intro st
    rw [run_cons, ih, handleEvent_ents]

lemma run_length (playerE : Nat) (events : List CollisionEvent)
    (st : CollisionState) :
    (player_collision_detection_system playerE events st).platforms.length =
      st.platforms.length := by
  have h := run_ents playerE events st
  calc (player_collision_detection_system playerE events st).platforms.length
      = ((player_collision_detection_system playerE events st).platforms.map Prod.fst).length := by
        rw [List.length_map]
    _ = (st.platforms.map Prod.fst).length := by rw [h]
    _ = st.platforms.length := by rw [List.length_map]

lemma run_flag_mono (playerE : Nat) (events : List CollisionEvent) :
    ∀ (st : CollisionState) (i e : Nat),
      st.platforms.get? i = some (e, true) →
      (player_collision_detection_system playerE events st).platforms.get? i =
        some (e, true) := by
  induction events with
  | nil => intro st i e h; exact h
  | cons ev evs ih =>
    intro st i e h
    rw [run_cons]
    exact ih _ i e (handleEvent_flag_mono playerE st ev i e h)

lemma countScored_le_length (ps : List (Nat × Bool)) :
    countScored ps ≤ ps.length :=
  List.countP_le_length _

-- ## Last-event-wins view of the grounded flag

lemma startedHit_iff (playerE : Nat) (ev : CollisionEvent)
    (ps : List (Nat × Bool)) :
    startedHit playerE ev ps = true ↔
      ∃ a b f, ev = CollisionEvent.Started a b f ∧ a = playerE ∧ f = 0 ∧
        b ∈ ps.map Prod.fst := by
  cases ev with
  | Started a b f =>
    simp only [startedHit, List.any_eq_true, decide_eq_true_eq,
      CollisionEvent.Started.injEq, List.mem_map]
    constructor
    · rintro ⟨p, hp, ha, hb, hf⟩
      exact ⟨a, b, f, ⟨rfl, rfl, rfl⟩, ha, hf, p, hp, hb.symm⟩
    · rintro ⟨a', b', f', ⟨rfl, rfl, rfl⟩, ha, hf, p, hp, hb⟩
      exact ⟨p, hp, ha, hb.symm, hf⟩
  | Stopped a b f =>
    simp [startedHit]

lemma stoppedHit_iff (playerE : Nat) (ev : CollisionEvent)
    (ps : List (Nat × Bool)) :
    stoppedHit playerE ev ps = true ↔
      ∃ a b f, ev = CollisionEvent.Stopped a b f ∧ a = playerE ∧ f = 0 ∧
        b ∈ ps.map Prod.fst := by
  cases ev with
  | Started a b f =>
    simp [stoppedHit]
  | Stopped a b f =>
    simp only [stoppedHit, List.any_eq_true, decide_eq_true_eq,
      CollisionEvent.Stopped.injEq, List.mem_map]
    constructor
    · rintro ⟨p, hp, ha, hb, hf⟩
      exact ⟨a, b, f, ⟨rfl, rfl, rfl⟩, ha, hf, p, hp, hb.symm⟩
    · rintro ⟨a', b', f', ⟨rfl, rfl, rfl⟩, ha, hf, p, hp, hb⟩
      exact ⟨p, hp, ha, hb.symm, hf⟩

lemma handleEvent_colliding_verdict (playerE : Nat) (st : CollisionState)
    (ev : CollisionEvent) :
    (handleEvent playerE st ev).player_colliding =
      (eventVerdict playerE (st.platforms.map Prod.fst) ev).getD
        st.player_colliding := by
  rw [handleEvent_colliding]
  cases ev with
  | Started a b f =>
    by_cases h : a = playerE ∧ f = 0 ∧ b ∈ st.platforms.map Prod.fst
    · have hs : startedHit playerE (CollisionEvent.Started a b f) st.platforms
          = true := by
        rw [startedHit_iff]
        exact ⟨a, b, f, rfl, h⟩
      rw [hs]
      simp [eventVerdict, h]
    · have hs : startedHit playerE (CollisionEvent.Started a b f) st.platforms
          = false := by
        rw [Bool.eq_false_iff, ne_eq, startedHit_iff]
        rintro ⟨a', b', f', heq, hh⟩
        cases heq
        exact h hh
      rw [hs, stoppedHit_eq_false_of_started]
      simp only [eventVerdict, if_neg h, Option.getD_none]
      simp
  | Stopped a b f =>
    rw [startedHit_eq_false_of_stopped]
    by_cases h : a = playerE ∧ f = 0 ∧ b ∈ st.platforms.map Prod.fst
    · have hs : stoppedHit playerE (CollisionEvent.Stopped a b f) st.platforms
          = true := by
        rw [stoppedHit_iff]
        exact ⟨a, b, f, rfl, h⟩
      rw [hs]
      simp [eventVerdict, h]
    · have hs : stoppedHit playerE (CollisionEvent.Stopped a b f) st.platforms
          = false := by
        rw [Bool.eq_false_iff, ne_eq, stoppedHit_iff]
        rintro ⟨a', b', f', heq, hh⟩
        cases heq
        exact h hh
      rw [hs]
      simp only [eventVerdict, if_neg h, Option.getD_none]
      simp

lemma run_colliding (playerE : Nat) (events : List CollisionEvent) :
    ∀ st : CollisionState,
      (player_collision_detection_system playerE events st).player_colliding =
        (lastVerdict playerE (st.platforms.map Prod.fst) events).getD
          st.player_colliding := by
  induction events with
  | nil => intro st; rfl
  | cons ev evs ih =>
    intro st
    rw [run_cons, ih, handleEvent_ents, handleEvent_colliding_verdict]
    cases hl : lastVerdict playerE (st.platforms.map Prod.fst) evs <;>
      simp [lastVerdict, hl]

-- ## Counting fresh hits when platform entity ids are distinct

lemma mem_map_fst_of_get? {ps : List (Nat × Bool)} {i e : Nat} {b : Bool}
    (h : ps.get? i = some (e, b)) : e ∈ ps.map Prod.fst := by
  have hm : (e, b) ∈ ps := List.get?_mem h
  exact List.mem_map.mpr ⟨(e, b), hm, rfl⟩

lemma freshHits_get_false (playerE e : Nat) :
    ∀ (ps : List (Nat × Bool)) (i : Nat), (ps.map Prod.fst).Nodup →
      ps.get? i = some (e, false) →
      freshHits playerE (CollisionEvent.Started playerE e 0) ps = 1 := by
  intro ps
  induction ps with
  | nil => intro i _ h; simp at h
  | cons p psl ih =>
    intro i hnd h
    rw [List.map_cons, List.nodup_cons] at hnd
    obtain ⟨hne, hnd'⟩ := hnd
    cases i with
    | zero =>
      have hp : p = (e, false) := by
        rw [List.get?_cons_zero] at h
        exact Option.some_injective _ h
      subst hp
      rw [freshHits, List.countP_cons]
      have hz : (psl.countP fun q =>
          decide (CollisionEvent.Started playerE e 0 =
            CollisionEvent.Started playerE q.1 0) && !q.2) = 0 := by
        rw [List.countP_eq_zero]
        intro q hq
        simp only [Bool.and_eq_true, decide_eq_true_eq,
          CollisionEvent.Started.injEq, not_and]
        rintro ⟨-, hbe, -⟩
        exact absurd (hbe ▸ List.mem_map.mpr ⟨q, hq, rfl⟩) hne
      rw [← freshHits, freshHits, hz]
      simp
    | succ i =>
      rw [List.get?_cons_succ] at h
      have hpe : p.1 ≠ e := by
        intro hc
        exact hne (hc ▸ mem_map_fst_of_get? h)
      rw [freshHits, List.countP_cons, ← freshHits, ih i hnd' h]
      have hx : (decide (CollisionEvent.Started playerE e 0 =
          CollisionEvent.Started playerE p.1 0) && !p.2) = false := by
        simp only [Bool.and_eq_false_iff, decide_eq_false_iff_not,
          CollisionEvent.Started.injEq, not_and]
        exact Or.inl (fun _ hbe _ => hpe hbe.symm)
      rw [hx]
      simp

lemma freshHits_get_true (playerE e : Nat) :
    ∀ (ps : List (Nat × Bool)) (i : Nat), (ps.map Prod.fst).Nodup →
      ps.get? i = some (e, true) →
      freshHits playerE (CollisionEvent.Started playerE e 0) ps = 0 := by
  intro ps
  induction ps with
  | nil => intro i _ _; rfl
  | cons p psl ih =>
    intro i hnd h
    rw [List.map_cons, List.nodup_cons] at hnd
    obtain ⟨hne, hnd'⟩ := hnd
    cases i with
    | zero =>
      have hp : p = (e, true) := by
        rw [List.get?_cons_zero] at h
        exact Option.some_injective _ h
      subst hp
      rw [freshHits, List.countP_cons]
      have hz : (psl.countP fun q =>
          decide (CollisionEvent.Started playerE e 0 =
            CollisionEvent.Started playerE q.1 0) && !q.2) = 0 := by
        rw [List.countP_eq_zero]
        intro q hq
        simp only [Bool.and_eq_true, decide_eq_true_eq,
          CollisionEvent.Started.injEq, not_and]
        rintro ⟨-, hbe, -⟩
        exact absurd (hbe ▸ List.mem_map.mpr ⟨q, hq, rfl⟩) hne
      rw [← freshHits, freshHits, hz]
      simp
    | succ i =>
      rw [List.get?_cons_succ] at h
      have hpe : p.1 ≠ e := by
        intro hc
        exact hne (hc ▸ mem_map_fst_of_get? h)
      rw [freshHits, List.countP_cons, ← freshHits, ih i hnd' h]
      have hx : (decide (CollisionEvent.Started playerE e 0 =
          CollisionEvent.Started playerE p.1 0) && !p.2) = false := by
        simp only [Bool.and_eq_false_iff, decide_eq_false_iff_not,
          CollisionEvent.Started.injEq, not_and]
        exact Or.inl (fun _ hbe _ => hpe hbe.symm)
      rw [hx]
      simp

lemma updatePlat_self (playerE e : Nat) (b : Bool) :
    updatePlat playerE (CollisionEvent.Started playerE e 0) (e, b) = (e, true) := by
  simp [updatePlat]

lemma handleEventAux_skip (playerE : Nat) (ev : CollisionEvent)
    (h : eventFirstId ev ≠ playerE) (score : Int) (colliding : Bool)
    (ps : List (Nat × Bool)) :
    handleEventAux playerE ev score colliding ps = (score, colliding, ps) := by
  induction ps with
  | nil => rfl
  | cons p psl ih =>
    have hs : ev ≠ CollisionEvent.Started playerE p.1 0 := by
      intro heq
      rw [heq] at h
      exact h rfl
    have ht : ev ≠ CollisionEvent.Stopped playerE p.1 0 := by
      intro heq
      rw [heq] at h
      exact h rfl
    simp [handleEventAux, hs, ht, ih]

-- ## Claim theorems: collision handling and scoring

/-- C1: for every collision-Began(Player, P) event processed by the score
tracker, if P's `already_collided` flag is false the score increases by
exactly 1 and the flag is set true, otherwise the event is a no-op for
the score; over a session the flag transitions false→true at most once
and is never reset, the score is non-decreasing, and (from the spawned
initial state: score 0, all flags false) the score never exceeds the
number of platforms. -/
theorem C1_score_tracker (playerE : Nat) (st : CollisionState) :
    (∀ i e : Nat, (st.platforms.map Prod.fst).Nodup →
      (st.platforms.get? i = some (e, false) →
        (handleEvent playerE st (CollisionEvent.Started playerE e 0)).score =
          st.score + 1 ∧
        (handleEvent playerE st
            (CollisionEvent.Started playerE e 0)).platforms.get? i =
          some (e, true)) ∧
      (st.platforms.get? i = some (e, true) →
        (handleEvent playerE st (CollisionEvent.Started playerE e 0)).score =
          st.score)) ∧
    (∀ (events : List CollisionEvent) (i e : Nat),
      st.platforms.get? i = some (e, true) →
      (player_collision_detection_system playerE events st).platforms.get? i =
        some (e, true)) ∧
    (∀ events : List CollisionEvent,
      st.score ≤ (player_collision_detection_system playerE events st).score) ∧
    (∀ events : List CollisionEvent, st.score = 0 →
      (∀ p ∈ st.platforms, p.2 = false) →
      (player_collision_detection_system playerE events st).score ≤
        st.platforms.length) := by
  refine ⟨?_, ?_, ?_, ?_⟩
  · intro i e hnd
    constructor
    · intro h
      constructor
      · rw [handleEvent_score, freshHits_get_false playerE e st.platforms i hnd h]
        norm_num
      · rw [handleEvent_platforms, List.get?_map, h, Option.map_some']
        rw [updatePlat_self]
    · intro h
      rw [handleEvent_score, freshHits_get_true playerE e st.platforms i hnd h]
      norm_num
  · intro events i e h
    exact run_flag_mono playerE events st i e h
  · intro events
    exact run_score_le playerE events st
  · intro events h0 hall
    have hc : countScored st.platforms = 0 := by
      rw [countScored, List.countP_eq_zero]
      intro p hp
      simp [hall p hp]
    have hinv := run_invariant playerE events st (by rw [h0, hc]; rfl)
    rw [hinv]
    have hle := countScored_le_length
      (player_collision_detection_system playerE events st).platforms
    have hlen := run_length playerE events st
    omega

theorem C1_score_tracker_witness :
    (handleEvent 0 ⟨0, false, [(1, false), (2, true)]⟩
        (CollisionEvent.Started 0 1 0)).score = 0 + 1 ∧
    (handleEvent 0 ⟨0, false, [(1, false), (2, true)]⟩
        (CollisionEvent.Started 0 1 0)).platforms.get? 0 = some (1, true) :=
  ((C1_score_tracker 0 ⟨0, false, [(1, false), (2, true)]⟩).1 0 1
    (by decide)).1 (by decide)

/-- C2 (code bug): the handler's identification of the (Player,
Platform) pair is NOT symmetric: it compares the incoming event with
`==` against `CollisionEvent::Started(player, platform, flags(0))` /
`Stopped(player, platform, flags(0))`, so an event carrying the two ids
in the order (Platform, Player) matches neither branch and has no effect
on grounded state or score, while the (Player, Platform) order scores
and grounds.  The third conjunct is the general fact: any event whose
FIRST id is not the player entity leaves the whole state untouched. -/
theorem C2_swapped_event_ignored :
    (player_collision_detection_system 0 [CollisionEvent.Started 1 0 0]
        ⟨0, false, [(1, false)]⟩ = ⟨0, false, [(1, false)]⟩) ∧
    (player_collision_detection_system 0 [CollisionEvent.Started 0 1 0]
        ⟨0, false, [(1, false)]⟩ = ⟨1, true, [(1, true)]⟩) ∧
    (∀ (playerE : Nat) (st : CollisionState) (ev : CollisionEvent),
      eventFirstId ev ≠ playerE → handleEvent playerE st ev = st) := by
  refine ⟨by decide, by decide, ?_⟩
  intro playerE st ev h
  simp [handleEvent, handleEventAux_skip playerE ev h]

theorem C2_swapped_event_ignored_witness :
    handleEvent 0 ⟨0, false, [(1, false)]⟩ (CollisionEvent.Started 1 0 0) =
      ⟨0, false, [(1, false)]⟩ :=
  C2_swapped_event_ignored.2.2 0 ⟨0, false, [(1, false)]⟩
    (CollisionEvent.Started 1 0 0) (by decide)

/-- C3: after a frame's event pass the grounded (`player_colliding`)
flag equals the verdict of the last event the handler matched (`some
true` for a matched Began, `some false` for a matched Ended), falling
back to its previous value — no counting of active contacts.  The second
conjunct is the documented consequence: Began(P1), Began(P2), Ended(P1)
leaves the flag false although the contact with P2 never ended. -/
theorem C3_grounded_last_event_wins (playerE : Nat)
    (events : List CollisionEvent) (st : CollisionState) :
    ((player_collision_detection_system playerE events st).player_colliding =
      (lastVerdict playerE (st.platforms.map Prod.fst) events).getD
        st.player_colliding) ∧
    (player_collision_detection_system 0
        [CollisionEvent.Started 0 1 0, CollisionEvent.Started 0 2 0,
         CollisionEvent.Stopped 0 1 0]
        ⟨0, false, [(1, false), (2, false)]⟩).player_colliding = false :=
  ⟨run_colliding playerE events st, by decide⟩

/-- C10: the global score equals the number of platforms whose
`already_collided` flag is set — the equality holds for the spawned
initial state (score 0, all flags false) and is preserved by every
frame's event pass. -/
theorem C10_score_eq_scored_count (playerE : Nat)
    (events : List CollisionEvent) (st : CollisionState) :
    (st.score = 0 → (∀ p ∈ st.platforms, p.2 = false) →
      (player_collision_detection_system playerE events st).score =
        countScored
          (player_collision_detection_system playerE events st).platforms) ∧
    (st.score = countScored st.platforms →
      (player_collision_detection_system playerE events st).score =
        countScored
          (player_collision_detection_system playerE events st).platforms) := by
  constructor
  · intro h0 hall
    apply run_invariant
    have hc : countScored st.platforms = 0 := by
      rw [countScored, List.countP_eq_zero]
      intro p hp
      simp [hall p hp]
    rw [h0, hc]
    rfl
  · exact run_invariant playerE events st

theorem C10_score_eq_scored_count_witness :
    (player_collision_detection_system 0 [CollisionEvent.Started 0 1 0]
        ⟨0, false, [(1, false)]⟩).score =
      countScored (player_collision_detection_system 0
        [CollisionEvent.Started 0 1 0] ⟨0, false, [(1, false)]⟩).platforms :=
  (C10_score_eq_scored_count 0 [CollisionEvent.Started 0 1 0]
      ⟨0, false, [(1, false)]⟩).1 rfl (by decide)

-- ## Claim theorems: input translation

/-- C4: whenever the Down key is pressed, the frame ends with
`linvel.y = -jump_force * 3`, even when `player_colliding` (grounded) is
true — the fast-fall assignment runs after the grounded jump assignment
and overrides it. -/
theorem C4_fast_fall_overrides (left right respawn : Bool)
    (player : Player) (vel : Velocity) (translation : ℚ × ℚ × ℚ) :
    (player_input_system left right true respawn player vel
        translation).2.1.y = -player.jump_force * 3 := by
  cases left <;> cases right <;>
    by_cases hc : player.player_colliding <;>
      simp [player_input_system, hc]

/-- C9 counterexample: with both Left and Right pressed (and
`facing_right` even starting out true) the frame ends with
`facing_right = false` — the Left assignment runs last — refuting the
claim that right takes precedence and the flag ends true. -/
theorem C9_both_pressed_not_facing_right :
    ¬ ((player_input_system true true false false
        ⟨300, 200, false, true⟩ ⟨0, 0⟩ (0, 0, 0)).1.facing_right = true) := by
  decide

/-- C9 amended: `facing_right` is updated from whichever of left/right
is pressed, with the assignments in source order RIGHT-then-LEFT, so
left takes precedence (last-writer-wins) when both are pressed: if left
is pressed the frame ends with `facing_right = false`; if only right is
pressed it ends true; if neither, it is unchanged. -/
theorem C9_facing_update (left right down respawn : Bool)
    (player : Player) (vel : Velocity) (translation : ℚ × ℚ × ℚ) :
    (left = true →
      (player_input_system left right down respawn player vel
          translation).1.facing_right = false) ∧
    (left = false → right = true →
      (player_input_system left right down respawn player vel
          translation).1.facing_right = true) ∧
    (left = false → right = false →
      (player_input_system left right down respawn player vel
          translation).1.facing_right = player.facing_right) := by
  cases left <;> cases right <;> simp [player_input_system]

theorem C9_facing_update_witness :
    (player_input_system true true false false ⟨300, 200, false, true⟩
        ⟨0, 0⟩ (0, 0, 0)).1.facing_right = false :=
  (C9_facing_update true true false false ⟨300, 200, false, true⟩
      ⟨0, 0⟩ (0, 0, 0)).1 rfl

-- ## Claim theorems: camera follow

/-- C8 counterexample: with `follow_speed = 5` and `deltaTime = 0.3` the
code's interpolation factor is `0.3 * 5 = 1.5`, not `min 1 1.5 = 1`:
starting at y = 0 with the player at y = 10 the camera jumps to y = 15 —
past the player — while the spec-modelled min-clamped update lands
exactly at 10.  This refutes the `min(1, follow_speed * deltaTime)`
factor and the never-overshoot consequence for fixed deltaTime. -/
theorem C8_overshoot_counterexample :
    (player_camera_follow_system (0, 0, 1) 10 (3 / 10) 5).2.1 = 15 ∧
    (cameraFollowSpec (0, 0, 1) 10 (3 / 10) 5).2.1 = 10 ∧
    (player_camera_follow_system (0, 0, 1) 10 (3 / 10) 5).2.1 ≠
      (cameraFollowSpec (0, 0, 1) 10 (3 / 10) 5).2.1 ∧
    10 < (player_camera_follow_system (0, 0, 1) 10 (3 / 10) 5).2.1 := by
  norm_num [player_camera_follow_system, cameraFollowSpec, lerpQ, min_def]

/-- C8 amended: the camera lerps toward `(0, player.y, 1)` with the
UNclamped factor `deltaTime * follow_speed`; the horizontal position
stays pinned at 0 (the camera spawns at x = 0); and whenever
`0 < deltaTime * follow_speed ≤ 1` and the camera is not already at the
player's height, one frame strictly decreases the vertical distance to
the player and never overshoots (the vertical offset keeps its sign). -/
theorem C8_camera_follow (camY playerY dt fs : ℚ)
    (h1 : 0 < dt * fs) (h2 : dt * fs ≤ 1) (h3 : camY ≠ playerY) :
    (player_camera_follow_system (0, camY, 1) playerY dt fs).1 = 0 ∧
    (player_camera_follow_system (0, camY, 1) playerY dt fs).2.1 =
      camY + (playerY - camY) * (dt * fs) ∧
    |playerY - (player_camera_follow_system (0, camY, 1) playerY dt fs).2.1| <
      |playerY - camY| ∧
    0 ≤ (playerY -
        (player_camera_follow_system (0, camY, 1) playerY dt fs).2.1) *
      (playerY - camY) := by
  have hy : (player_camera_follow_system (0, camY, 1) playerY dt fs).2.1 =
      camY + (playerY - camY) * (dt * fs) := rfl
  refine ⟨by simp [player_camera_follow_system, lerpQ], hy, ?_, ?_⟩
  · rw [hy]
    have key : playerY - (camY + (playerY - camY) * (dt * fs)) =
        (playerY - camY) * (1 - dt * fs) := by ring
    rw [key, abs_mul]
    have hd : 0 < |playerY - camY| :=
      abs_pos.mpr (sub_ne_zero.mpr (Ne.symm h3))
    have habs : |1 - dt * fs| < 1 := by
      rw [abs_lt]
      constructor <;> linarith
    calc |playerY - camY| * |1 - dt * fs|
        < |playerY - camY| * 1 := mul_lt_mul_of_pos_left habs hd
      _ = |playerY - camY| := mul_one _
  · rw [hy]
    have key : (playerY - (camY + (playerY - camY) * (dt * fs))) *
        (playerY - camY) = (playerY - camY) ^ 2 * (1 - dt * fs) := by ring
    rw [key]
    exact mul_nonneg (sq_nonneg _) (by linarith)

theorem C8_camera_follow_witness :
    |(10 : ℚ) - (player_camera_follow_system (0, 0, 1) 10 (1 / 10) 5).2.1| <
      |(10 : ℚ) - 0| :=
  (C8_camera_follow 0 10 (1 / 10) 5 (by norm_num) (by norm_num)
      (by norm_num)).2.2.1

-- ## Claim theorems: screen wrapping

/-- C7: the wrapper's exact asymmetric rules — x above
`halfWidth + spritePad` teleports to `-halfWidth + SPRITE_SIZE * 1.2`,
x below `-halfWidth` teleports to `halfWidth + spritePad`, anything else
is unchanged — and the consequence that the post-wrap x always lies in
`[-halfWidth - pad, +halfWidth + pad]` with `pad = SPRITE_SIZE / 2`. -/
theorem C7_screen_wrap (x : ℚ) :
    (x > WINDOW_WIDTH / 2 + SPRITE_SIZE / 2 →
      player_screen_looping_system x =
        -(WINDOW_WIDTH / 2) + SPRITE_SIZE * 1.2) ∧
    (x < -(WINDOW_WIDTH / 2) →
      player_screen_looping_system x = WINDOW_WIDTH / 2 + SPRITE_SIZE / 2) ∧
    (¬ x > WINDOW_WIDTH / 2 + SPRITE_SIZE / 2 → ¬ x < -(WINDOW_WIDTH / 2) →
      player_screen_looping_system x = x) ∧
    -(WINDOW_WIDTH / 2) - SPRITE_SIZE / 2 ≤ player_screen_looping_system x ∧
    player_screen_looping_system x ≤ WINDOW_WIDTH / 2 + SPRITE_SIZE / 2 := by
  refine ⟨?_, ?_, ?_, ?_⟩
  · intro h
    rw [player_screen_looping_system, if_pos h]
  · intro h
    have h1 : ¬ x > WINDOW_WIDTH / 2 + SPRITE_SIZE / 2 := by
      norm_num [WINDOW_WIDTH, SPRITE_SIZE] at h ⊢
      linarith
    rw [player_screen_looping_system, if_neg h1, if_pos h]
  · intro h1 h2
    rw [player_screen_looping_system, if_neg h1, if_neg h2]
  · rw [player_screen_looping_system]
    split_ifs with h1 h2
    · norm_num [WINDOW_WIDTH, SPRITE_SIZE]
    · norm_num [WINDOW_WIDTH, SPRITE_SIZE]
    · push_neg at h1 h2
      norm_num [WINDOW_WIDTH, SPRITE_SIZE] at h1 h2 ⊢
      constructor <;> linarith

theorem C7_screen_wrap_witness :
    player_screen_looping_system 1000 =
      -(WINDOW_WIDTH / 2) + SPRITE_SIZE * 1.2 :=
  (C7_screen_wrap 1000).1 (by norm_num [WINDOW_WIDTH, SPRITE_SIZE])

-- ## Claim theorems: platform field generation

/-- C5: the startup platform field has exactly 50 platforms (1 anchor
plus the 49 spawned by `for index in 1..50`), every platform is created
with `already_collided = false`, and the y-coordinates are
`anchorY + S * index` for `index = 0..49` with the fixed spacing
`S = WINDOW_HEIGHT / 4.2` — an arithmetic, strictly increasing sequence
independent of the random horizontal samples `u`. -/
theorem C5_platform_ladder (u : Nat → ℚ) :
    (spawn_platforms u).length = 50 ∧
    (spawn_platforms u).map (fun p => p.2) =
      (List.range 50).map (fun (index : Nat) =>
        (-(WINDOW_HEIGHT / 4) + WINDOW_HEIGHT / 4.2 * (index : ℚ), false)) ∧
    List.Pairwise (fun p q => p.2.1 < q.2.1) (spawn_platforms u) := by
  have hr : List.range 50 = 0 :: List.range' 1 49 := by
    rw [List.range_eq_range']
    rfl
  have hmap : (spawn_platforms u).map (fun p => p.2) =
      (List.range 50).map (fun (index : Nat) =>
        (-(WINDOW_HEIGHT / 4) + WINDOW_HEIGHT / 4.2 * (index : ℚ), false)) := by
    rw [hr]
    simp only [spawn_platforms, List.map_cons, List.map_map]
    congr 1
    simp
  refine ⟨?_, hmap, ?_⟩
  · simp [spawn_platforms]
  · have hS : (0 : ℚ) < WINDOW_HEIGHT / 4.2 := by norm_num [WINDOW_HEIGHT]
    have hpair2 : List.Pairwise (fun a b => a.1 < b.1)
        ((List.range 50).map (fun (index : Nat) =>
          (-(WINDOW_HEIGHT / 4) + WINDOW_HEIGHT / 4.2 * (index : ℚ), false))) := by
      refine List.Pairwise.map _ ?_ (List.pairwise_lt_range 50)
      intro a b hab
      simp only
      have hcast : (a : ℚ) < (b : ℚ) := by exact_mod_cast hab
      have := mul_lt_mul_of_pos_left hcast hS
      linarith
    have hpair : List.Pairwise (fun a b => a.1 < b.1)
        ((spawn_platforms u).map (fun p => p.2)) := by
      rw [hmap]
      exact hpair2
    have hfinal := List.pairwise_map.mp hpair
    exact hfinal

/-- C6 counterexample: the source samples x from
`-(WINDOW_WIDTH/2 - PLATFORM_WIDTH) .. (WINDOW_WIDTH/2 - PLATFORM_WIDTH)`,
subtracting the FULL platform width (120), so the interval is
`[-360, 360)`; the claim's `halfWidth - platformHalfWidth` bound would
be `±420`. -/
theorem C6_range_counterexample :
    platform_x_lo ≠ platform_x_lo_spec ∧
    platform_x_hi ≠ platform_x_hi_spec ∧
    platform_x_lo = -360 ∧ platform_x_lo_spec = -420 ∧
    platform_x_hi = 360 ∧ platform_x_hi_spec = 420 := by
  norm_num [platform_x_lo, platform_x_lo_spec, platform_x_hi,
    platform_x_hi_spec, WINDOW_WIDTH, PLATFORM_WIDTH]

/-- C6 amended: every generated (non-anchor) platform's x-coordinate is
drawn uniformly at random from the half-open interval
`[-(halfWidth - platformWidth), +(halfWidth - platformWidth))`
= `[-360, 360)` — the source subtracts the full platform width, not
half of it. -/
theorem C6_x_sample_range (u : Nat → ℚ) (hu : ∀ i, 0 ≤ u i ∧ u i < 1) :
    (∀ p ∈ (spawn_platforms u).tail,
      platform_x_lo ≤ p.1 ∧ p.1 < platform_x_hi) ∧
    platform_x_lo = -360 ∧ platform_x_hi = 360 := by
  refine ⟨?_, by norm_num [platform_x_lo, WINDOW_WIDTH, PLATFORM_WIDTH],
    by norm_num [platform_x_hi, WINDOW_WIDTH, PLATFORM_WIDTH]⟩
  intro p hp
  simp only [spawn_platforms, List.tail_cons, List.mem_map] at hp
  obtain ⟨index, hmem, rfl⟩ := hp
  obtain ⟨h0, h1⟩ := hu index
  have hwidth : (0 : ℚ) < platform_x_hi - platform_x_lo := by
    norm_num [platform_x_hi, platform_x_lo, WINDOW_WIDTH, PLATFORM_WIDTH]
  constructor
  · show platform_x_lo ≤ gen_range platform_x_lo platform_x_hi (u index)
    unfold gen_range
    nlinarith
  · show gen_range platform_x_lo platform_x_hi (u index) < platform_x_hi
    unfold gen_range
    nlinarith

theorem C6_x_sample_range_witness :
    platform_x_lo = -360 ∧ platform_x_hi = 360 :=
  (C6_x_sample_range (fun _ => 1 / 2) (fun _ => by norm_num)).2
